import Mathlib

/-
Verification of the All-Hardware CI Project API handler
(src/python/tvm/contrib/allhw/ci_api_server.py, class AllHWCIAPIHandlerImpl).

The handler is a single mutable object; we embed it as a `Session` record and
each method as a state-passing function.  The remote CI service and the
monotonic clock are external, so each polling iteration of `read_transport`
(resp. each submission attempt of `write_transport`) consumes one entry of an
environment list describing the remote response and the clock reading observed
at that iteration.  The busy-wait loops of the source terminate only when the
environment makes them; running out of environment entries is reported as the
distinguished outcome `fuelOut` (the real loop would simply still be running).
-/

set_option maxRecDepth 4000

/-- Configuration overrides: the `options` dictionary accepted by the
constructor and by `_set_options` (lines 52-67).  A `none` field plays the
role of an absent / `None` dictionary entry, which must not overwrite the
current value. -/
structure Options where
  url : Option String
  api_key : Option String
  task_timeout : Option Nat
  rate : Option Nat
  log : Option Nat

deriving instance DecidableEq for Options

/-- The whole mutable state of `AllHWCIAPIHandlerImpl` (lines 35-50):
configuration fields, the last stored options dictionary, and the transport
session fields `task_id`, `closed`, `readpos`, `readbuf`, `finished`,
`firmware`.  Bytes are modelled as `List Nat`. -/
structure Session where
  url : String
  api_key : String
  task_timeout : Nat
  rate : Nat
  log : Nat
  options : Option Options
  task_id : Option String
  closed : Bool
  readpos : Nat
  readbuf : List Nat
  finished : Bool
  firmware : Option String

deriving instance DecidableEq for Session

/-- `_set_options` (lines 52-67): if the argument is `None` nothing happens,
otherwise it is stored in `self.options` and each present field overrides the
corresponding configuration value. -/
def set_options (options : Option Options) (s : Session) : Session :=
  match options with
  | none => s
  | some o =>
    { s with
      options := some o,
      url := o.url.getD s.url,
      api_key := o.api_key.getD s.api_key,
      task_timeout := o.task_timeout.getD s.task_timeout,
      rate := o.rate.getD s.rate,
      log := o.log.getD s.log }

/-- The `__init__` constructor (lines 35-50): defaults, then `_set_options`,
then the session fields. -/
def initSession (options : Option Options) : Session :=
  { set_options options
      { url := "https://cloud.all-hw.com/ci/usertask",
        api_key := "85282cff-fc94-4ed1-8633-6c74637e95e0",
        task_timeout := 20,
        rate := 115200,
        log := 0,
        options := none,
        task_id := none,
        closed := true,
        readpos := 0,
        readbuf := [],
        finished := false,
        firmware := none } with
    task_id := none, closed := true, readpos := 0, readbuf := [],
    finished := false, firmware := none }

/-- The only exception kind this component defines itself
(`CITransportUsageError`, lines 30-31); `flash` and `open_transport` raise it. -/
inductive CIError where
  | usageError

deriving instance DecidableEq for CIError

/-- `flash` (lines 69-85): must be called while closed, records the firmware
path derived from the current working directory, merges options, clears the
buffer and the finished flag, and stays closed.  It does not touch `readpos`
or `task_id`. -/
def flash (cwd : String) (options : Option Options) (s : Session) :
    Except CIError Session :=
  if s.closed = false then Except.error CIError.usageError
  else
    let s1 := { s with firmware := some (cwd ++ "/build/zephyr/zephyr.hex") }
    let s2 := set_options options s1
    Except.ok { s2 with readbuf := [], finished := false, closed := true }

/-- The fixed timeout-policy descriptor returned by `open_transport`
(lines 115-119). -/
structure TransportTimeouts where
  session_start_retry_timeout_sec : Nat
  session_start_timeout_sec : Nat
  session_established_timeout_sec : Nat

/-- The concrete descriptor value of lines 115-119 (all zeros). -/
def openTransportTimeouts : TransportTimeouts :=
  { session_start_retry_timeout_sec := 0,
    session_start_timeout_sec := 0,
    session_established_timeout_sec := 0 }

/-- `open_transport` (lines 87-119): must be called while closed, merges
options, resets cursor, buffer and finished flag, and marks the transport
open.  It does not touch `task_id` or `firmware`. -/
def open_transport (options : Option Options) (s : Session) :
    Except CIError Session :=
  if s.closed = false then Except.error CIError.usageError
  else
    let s1 := set_options options s
    Except.ok { s1 with readpos := 0, readbuf := [], finished := false, closed := false }

/-- `close_transport` (lines 121-131): unconditionally marks the transport
closed, empties the read buffer and clears the task id.  It does not touch
`readpos`, `finished`, `firmware` or the configuration. -/
def close_transport (s : Session) : Session :=
  { s with closed := true, readbuf := [], task_id := none }

/-- The local effect of one `requests.get` status poll in `read_transport`
(lines 172-184).  `setFinished` is true exactly when the response carried
HTTP 200 with a parseable `status` field equal to `finished`; `newBuf` is the
base64-decoded `output` field when present.  A non-200 response or a response
malformed before the relevant field is `⟨false, none⟩`; a response whose
`status` parses but whose `output` handling raises is `⟨true, none⟩` or
`⟨false, none⟩`, so every combination a real response can produce is
representable. -/
structure PollEffect where
  setFinished : Bool
  newBuf : Option (List Nat)

deriving instance DecidableEq for PollEffect

/-- Applies one poll response to the session, in source order (lines 177-182):
the finished latch is set first, then the buffer is replaced by the decoded
output snapshot when one is present. -/
def applyPoll (pe : PollEffect) (s : Session) : Session :=
  let s1 := if pe.setFinished = true then { s with finished := true } else s
  match pe.newBuf with
  | some b => { s1 with readbuf := b }
  | none => s1

/-- Outcome of a `read_transport` call: a returned byte string or one of the
three raised exceptions; `fuelOut` means the simulated environment ended with
the loop still running. -/
inductive ReadOutcome where
  | ok (bs : List Nat)
  | ioTimeout
  | transportClosed
  | usageError
  | fuelOut

deriving instance DecidableEq for ReadOutcome

/-- The buffer-consumption step of `read_transport` (lines 185-188):
`portion = readbuf[readpos : readpos + n - len(ret)]`, appended to the
in-progress result, advancing the cursor by its length. -/
def consume (n : Nat) (s : Session) (ret : List Nat) : Session × List Nat :=
  if s.readpos < s.readbuf.length then
    let portion := (s.readbuf.drop s.readpos).take (n - ret.length)
    ({ s with readpos := s.readpos + portion.length }, ret ++ portion)
  else (s, ret)

/-- The deadline test `(not end_time is None) and (end_time < time.monotonic())`
of lines 195 and 247. -/
def pastDeadline (end_time : Option ℤ) (now : ℤ) : Bool :=
  match end_time with
  | some et => decide (et < now)
  | none => false

/-- The part of one `read_transport` loop iteration after the optional poll
(lines 185-197 applied to the possibly refreshed state `sp`): consume unread
bytes, then the four exit tests in source order.  `Sum.inl` is an exit from
the loop carrying (outcome, state, polls-performed); `Sum.inr` continues with
the next iteration's state.  The final `ret[0:n] if len(ret) > n else ret`
of line 199 is applied at the `ok` exit. -/
def readExit (n : Nat) (end_time : Option ℤ) (now : ℤ)
    (sp : Session) (ret : List Nat) (polls1 : Nat) :
    (ReadOutcome × Session × Nat) ⊕ (Session × List Nat × Nat) :=
  let sc := (consume n sp ret).1
  let ret1 := (consume n sp ret).2
  if n ≤ ret1.length then
    Sum.inl (ReadOutcome.ok (if n < ret1.length then ret1.take n else ret1), sc, polls1)
  else if sc.finished = true then
    (if ret1.length = 0 then Sum.inl (ReadOutcome.ioTimeout, sc, polls1)
     else Sum.inl (ReadOutcome.ok ret1, sc, polls1))
  else if pastDeadline end_time now = true then Sum.inl (ReadOutcome.ioTimeout, sc, polls1)
  else Sum.inr (sc, ret1, polls1)

/-- One iteration of the `while True` loop of `read_transport` (lines 170-197):
poll when the buffer is exhausted and the task is not finished (counting the
poll), then the consumption and exit tests of `readExit`. -/
def readStep (n : Nat) (end_time : Option ℤ) (pe : PollEffect) (now : ℤ)
    (s : Session) (ret : List Nat) (polls : Nat) :
    (ReadOutcome × Session × Nat) ⊕ (Session × List Nat × Nat) :=
  if s.readbuf.length ≤ s.readpos ∧ s.finished = false then
    readExit n end_time now (applyPoll pe s) ret (polls + 1)
  else
    readExit n end_time now s ret polls

/-- The polling loop of `read_transport` (lines 170-197).  Each iteration
consumes the head of `env`: the poll response the remote service would give if
queried at that iteration, and the reading of the monotonic clock at that
iteration's deadline test.  The third component counts status polls actually
performed. -/
def readLoop (n : Nat) (end_time : Option ℤ) :
    List (PollEffect × ℤ) → Session → List Nat → Nat → ReadOutcome × Session × Nat
  | [], s, _, polls => (ReadOutcome.fuelOut, s, polls)
  | (pe, now) :: env, s, ret, polls =>
    match readStep n end_time pe now s ret polls with
    | Sum.inl r => r
    | Sum.inr (s1, ret1, polls1) => readLoop n end_time env s1 ret1 polls1

/-- `read_transport` (lines 134-199): the two precondition checks of lines
163-166, then `end_time = None if timeout_sec is None else monotonic() +
timeout_sec` (line 168, with `t0` the entry clock reading), then the loop with
`ret = b''`. -/
def read_transport (n : Nat) (timeout_sec : Option ℤ) (t0 : ℤ)
    (env : List (PollEffect × ℤ)) (s : Session) : ReadOutcome × Session × Nat :=
  if s.closed = true then (ReadOutcome.transportClosed, s, 0)
  else
    match s.task_id with
    | none => (ReadOutcome.usageError, s, 0)
    | some _ => readLoop n (Option.map (fun T => t0 + T) timeout_sec) env s [] 0

/-- Outcome of a `write_transport` call. -/
inductive WriteOutcome where
  | ok
  | ioTimeout
  | transportClosed
  | fuelOut

deriving instance DecidableEq for WriteOutcome

/-- The submission loop of `write_transport` (lines 235-249).  Each attempt
consumes the head of `env`: `some id` for an HTTP 200 response whose body is
the task id, `none` for any failed attempt, paired with the clock reading at
that attempt's deadline test.  On success the task id is recorded and the call
returns; on failure the deadline is tested and the loop retries. -/
def writeLoop (end_time : Option ℤ) :
    List (Option String × ℤ) → Session → WriteOutcome × Session
  | [], s => (WriteOutcome.fuelOut, s)
  | (resp, now) :: env, s =>
    match resp with
    | some tid => (WriteOutcome.ok, { s with task_id := some tid })
    | none =>
      if pastDeadline end_time now = true then (WriteOutcome.ioTimeout, s)
      else writeLoop end_time env s

/-- The implicit reopen of lines 227-229: `self.close_transport();
self.open_transport(self.options)`.  After `close_transport` the session is
closed, so `open_transport` cannot raise; the error branch is unreachable. -/
def reopen (s : Session) : Session :=
  match open_transport (close_transport s).options (close_transport s) with
  | Except.ok s1 => s1
  | Except.error _ => close_transport s

/-- `write_transport` (lines 201-249): the precondition check of line 224,
the implicit close+reopen when a task id already exists (lines 227-229), then
`end_time` computed once from the entry clock reading `t0` (line 234) and the
submission loop.  The payload `data` only ever reaches the remote service, so
it does not influence the local state. -/
def write_transport (data : List Nat) (timeout_sec : Option ℤ) (t0 : ℤ)
    (env : List (Option String × ℤ)) (s : Session) : WriteOutcome × Session :=
  if s.closed = true ∨ s.firmware = none then (WriteOutcome.transportClosed, s)
  else
    let s1 :=
      match s.task_id with
      | some _ => reopen s
      | none => s
    writeLoop (Option.map (fun T => t0 + T) timeout_sec) env s1

/-- One operation of the public interface, together with the environment
(remote responses and clock readings) its execution observes. -/
inductive Op where
  | flashOp (cwd : String) (opts : Option Options)
  | openOp (opts : Option Options)
  | closeOp
  | writeOp (data : List Nat) (timeout_sec : Option ℤ) (t0 : ℤ)
      (env : List (Option String × ℤ))
  | readOp (n : Nat) (timeout_sec : Option ℤ) (t0 : ℤ)
      (env : List (PollEffect × ℤ))

/-- The session state after one operation, whatever its outcome: a raised
exception leaves the state as it was at the raise point, which for `flash`
and `open_transport` is the entry state. -/
def runOp (s : Session) : Op → Session
  | Op.flashOp cwd opts =>
    match flash cwd opts s with
    | Except.ok s1 => s1
    | Except.error _ => s
  | Op.openOp opts =>
    match open_transport opts s with
    | Except.ok s1 => s1
    | Except.error _ => s
  | Op.closeOp => close_transport s
  | Op.writeOp data tmo t0 env => (write_transport data tmo t0 env s).2
  | Op.readOp n tmo t0 env => (read_transport n tmo t0 env s).2.1

/-- The session state after a sequence of operations. -/
def runOps (s : Session) (ops : List Op) : Session :=
  ops.foldl runOp s

/-- The remote service delivers the full accumulated output so far on every
poll, so consecutive output snapshots never shrink.  This predicate states
that property for a read environment: each snapshot it contains is at least
as long as the previous one (and the first at least as long as `curLen`, the
buffer length at call entry). -/
def envNonShrinkingB : Nat → List (PollEffect × ℤ) → Bool
  | _, [] => true
  | curLen, (pe, _) :: rest =>
    match pe.newBuf with
    | none => envNonShrinkingB curLen rest
    | some b => decide (curLen ≤ b.length) && envNonShrinkingB b.length rest

/-- A trace is valid when every read operation's environment delivers
non-shrinking output snapshots, starting from the buffer the session holds
when that read begins. -/
def validTraceB : Session → List Op → Bool
  | _, [] => true
  | s, op :: rest =>
    (match op with
     | Op.readOp _ _ _ env => envNonShrinkingB s.readbuf.length env
     | _ => true) && validTraceB (runOp s op) rest

/-- A concrete open session with a recorded task id, reached by
flash, open, write (the write submission succeeding at once). -/
def sOpenTask : Session :=
  runOps (initSession none)
    [Op.flashOp "/p" none, Op.openOp none,
     Op.writeOp [] none 0 [(some "t1", 0)]]

/-- A concrete open session whose task has finished with no output ever
produced: a read on `sOpenTask` polls once, learns `finished` with no output,
and raises `IoTimeoutError`, latching the flag. -/
def sFinishedTask : Session :=
  (read_transport 5 none 0 [(⟨true, none⟩, 0)] sOpenTask).2.1

/-- A concrete open session in which three bytes have been read: a read on
`sOpenTask` polls once, receives the snapshot `[1, 2, 3]`, returns it and
leaves the cursor at 3. -/
def sAfterRead : Session :=
  (read_transport 3 none 0 [(⟨false, some [1, 2, 3]⟩, 0)] sOpenTask).2.1

-- Basic facts about the building blocks of the read loop.

/-- Fields `consume` leaves untouched, the cursor/result length accounting,
the result-length bound, and preservation of the cursor bound. -/
theorem consume_spec (n : Nat) (s : Session) (ret : List Nat) :
    (consume n s ret).1.readbuf = s.readbuf ∧
    (consume n s ret).1.finished = s.finished ∧
    (consume n s ret).1.closed = s.closed ∧
    (consume n s ret).1.task_id = s.task_id ∧
    (consume n s ret).1.readpos + ret.length = s.readpos + (consume n s ret).2.length ∧
    (ret.length ≤ n → (consume n s ret).2.length ≤ n) ∧
    (s.readpos ≤ s.readbuf.length → (consume n s ret).1.readpos ≤ s.readbuf.length) := by
  unfold consume
  split_ifs with h
  · have h1 : ((s.readbuf.drop s.readpos).take (n - ret.length)).length ≤ n - ret.length :=
      List.length_take_le _ _
    have h2 : ((s.readbuf.drop s.readpos).take (n - ret.length)).length ≤
        s.readbuf.length - s.readpos := by
      rw [List.length_take, List.length_drop]
      exact Nat.min_le_right _ _
    refine ⟨rfl, rfl, rfl, rfl, ?_, ?_, ?_⟩
    · dsimp only
      rw [List.length_append]
      omega
    · intro hle
      dsimp only
      rw [List.length_append]
      omega
    · intro hle
      dsimp only
      omega
  · exact ⟨rfl, rfl, rfl, rfl, by dsimp only, fun h => h, fun h => h⟩

/-- Fields `applyPoll` leaves untouched, monotonicity of the finished latch,
and the two possible shapes of the refreshed buffer. -/
theorem applyPoll_spec (pe : PollEffect) (s : Session) :
    (applyPoll pe s).readpos = s.readpos ∧
    (applyPoll pe s).closed = s.closed ∧
    (applyPoll pe s).task_id = s.task_id ∧
    (s.finished = true → (applyPoll pe s).finished = true) ∧
    ((applyPoll pe s).readbuf = s.readbuf ∨
      ∃ b, pe.newBuf = some b ∧ (applyPoll pe s).readbuf = b) := by
  unfold applyPoll
  cases hb : pe.newBuf <;> split_ifs with hf <;>
    simp [hb]

/-- The deadline test succeeds exactly when a deadline exists and has been
passed by the given clock reading. -/
theorem pastDeadline_true_iff (et : Option ℤ) (t : ℤ) :
    pastDeadline et t = true ↔ ∃ E, et = some E ∧ E < t := by
  cases et <;> simp [pastDeadline]

/-- Exhaustive description of a loop-exit of `readExit`: untouched fields,
preservation of the cursor bound, the possible outcomes, the length facts
about a returned byte string, and the cursor accounting at an
`IoTimeoutError` raised with the finished flag set. -/
theorem readExit_inl_spec {n : Nat} {et : Option ℤ} {now : ℤ} {sp : Session}
    {ret : List Nat} {polls1 : Nat} {o : ReadOutcome} {s1 : Session} {c : Nat}
    (hstep : readExit n et now sp ret polls1 = Sum.inl (o, s1, c))
    (hret : ret.length ≤ n) :
    s1.readbuf = sp.readbuf ∧ s1.finished = sp.finished ∧
    s1.closed = sp.closed ∧ s1.task_id = sp.task_id ∧
    (sp.readpos ≤ sp.readbuf.length → s1.readpos ≤ s1.readbuf.length) ∧
    o ≠ ReadOutcome.transportClosed ∧ o ≠ ReadOutcome.usageError ∧
    o ≠ ReadOutcome.fuelOut ∧
    (∀ bs, o = ReadOutcome.ok bs →
      bs.length ≤ n ∧ (s1.finished = false → bs.length = n) ∧ (1 ≤ n → bs ≠ [])) ∧
    (o = ReadOutcome.ioTimeout → s1.finished = true →
      s1.readpos + ret.length = sp.readpos) := by
  obtain ⟨hbuf, hfin, hclsd, htid, hdelta, hlen, hinv⟩ := consume_spec n sp ret
  have hle : (consume n sp ret).2.length ≤ n := hlen hret
  simp only [readExit] at hstep
  by_cases h1 : n ≤ (consume n sp ret).2.length
  · rw [if_pos h1] at hstep
    have hnlt : ¬ n < (consume n sp ret).2.length := by omega
    rw [if_neg hnlt] at hstep
    simp only [Sum.inl.injEq, Prod.mk.injEq] at hstep
    obtain ⟨ho, hs1, hc⟩ := hstep
    subst ho hs1 hc
    refine ⟨hbuf, hfin, hclsd, htid, fun h => by rw [hbuf]; exact hinv h,
      by simp, by simp, by simp, ?_, by simp⟩
    intro bs hbs
    simp only [ReadOutcome.ok.injEq] at hbs
    subst hbs
    refine ⟨hle, fun _ => by omega, fun hn hnil => ?_⟩
    rw [hnil] at h1
    simp at h1
    omega
  · rw [if_neg h1] at hstep
    by_cases h2 : (consume n sp ret).1.finished = true
    · rw [if_pos h2] at hstep
      by_cases h3 : (consume n sp ret).2.length = 0
      · rw [if_pos h3] at hstep
        simp only [Sum.inl.injEq, Prod.mk.injEq] at hstep
        obtain ⟨ho, hs1, hc⟩ := hstep
        subst ho hs1 hc
        refine ⟨hbuf, hfin, hclsd, htid, fun h => by rw [hbuf]; exact hinv h,
          by simp, by simp, by simp, fun bs habs => by simp at habs, ?_⟩
        intro _ _
        omega
      · rw [if_neg h3] at hstep
        simp only [Sum.inl.injEq, Prod.mk.injEq] at hstep
        obtain ⟨ho, hs1, hc⟩ := hstep
        subst ho hs1 hc
        refine ⟨hbuf, hfin, hclsd, htid, fun h => by rw [hbuf]; exact hinv h,
          by simp, by simp, by simp, ?_, fun habs => by simp at habs⟩
        intro bs hbs
        simp only [ReadOutcome.ok.injEq] at hbs
        subst hbs
        refine ⟨hle, fun hf => ?_, fun _ hnil => ?_⟩
        · rw [hf] at h2
          exact absurd h2 (by simp)
        · rw [hnil] at h3
          simp at h3
    · rw [if_neg h2] at hstep
      by_cases h4 : pastDeadline et now = true
      · rw [if_pos h4] at hstep
        simp only [Sum.inl.injEq, Prod.mk.injEq] at hstep
        obtain ⟨ho, hs1, hc⟩ := hstep
        subst ho hs1 hc
        refine ⟨hbuf, hfin, hclsd, htid, fun h => by rw [hbuf]; exact hinv h,
          by simp, by simp, by simp, fun bs habs => by simp at habs, ?_⟩
        intro _ hfin1
        exact absurd hfin1 h2
      · rw [if_neg h4] at hstep
        simp at hstep

/-- Exhaustive description of a loop-continuation of `readExit`. -/
theorem readExit_inr_spec {n : Nat} {et : Option ℤ} {now : ℤ} {sp : Session}
    {ret : List Nat} {polls1 : Nat} {s1 : Session} {ret1 : List Nat} {p1 : Nat}
    (hstep : readExit n et now sp ret polls1 = Sum.inr (s1, ret1, p1))
    (hret : ret.length ≤ n) :
    s1.finished = false ∧ sp.finished = false ∧
    s1.readbuf = sp.readbuf ∧ s1.closed = sp.closed ∧ s1.task_id = sp.task_id ∧
    (sp.readpos ≤ sp.readbuf.length → s1.readpos ≤ s1.readbuf.length) ∧
    ret1.length ≤ n ∧ s1.readpos + ret.length = sp.readpos + ret1.length := by
  obtain ⟨hbuf, hfin, hclsd, htid, hdelta, hlen, hinv⟩ := consume_spec n sp ret
  simp only [readExit] at hstep
  by_cases h1 : n ≤ (consume n sp ret).2.length
  · rw [if_pos h1] at hstep
    simp at hstep
  · rw [if_neg h1] at hstep
    by_cases h2 : (consume n sp ret).1.finished = true
    · rw [if_pos h2] at hstep
      by_cases h3 : (consume n sp ret).2.length = 0
      · rw [if_pos h3] at hstep
        simp at hstep
      · rw [if_neg h3] at hstep
        simp at hstep
    · rw [if_neg h2] at hstep
      by_cases h4 : pastDeadline et now = true
      · rw [if_pos h4] at hstep
        simp at hstep
      · rw [if_neg h4] at hstep
        simp only [Sum.inr.injEq, Prod.mk.injEq] at hstep
        obtain ⟨hs1, hr1, hp⟩ := hstep
        subst hs1 hr1 hp
        simp only [Bool.not_eq_true] at h2
        exact ⟨h2, by rw [hfin] at h2; exact h2,
          hbuf, hclsd, htid, fun h => by rw [hbuf]; exact hinv h, by omega, hdelta⟩

/-- Lifting of `readExit_inl_spec` through the optional poll of `readStep`:
description of a loop-exit in terms of the iteration's entry state. -/
theorem readStep_inl_spec {n : Nat} {et : Option ℤ} {pe : PollEffect} {now : ℤ}
    {s : Session} {ret : List Nat} {polls : Nat} {o : ReadOutcome} {s1 : Session} {c : Nat}
    (hstep : readStep n et pe now s ret polls = Sum.inl (o, s1, c))
    (hret : ret.length ≤ n) :
    (s.finished = true → s1.finished = true) ∧
    s1.closed = s.closed ∧ s1.task_id = s.task_id ∧
    o ≠ ReadOutcome.transportClosed ∧ o ≠ ReadOutcome.usageError ∧
    o ≠ ReadOutcome.fuelOut ∧
    (∀ bs, o = ReadOutcome.ok bs →
      bs.length ≤ n ∧ (s1.finished = false → bs.length = n) ∧ (1 ≤ n → bs ≠ [])) ∧
    (o = ReadOutcome.ioTimeout → s1.finished = true →
      s1.readpos + ret.length = s.readpos) := by
  unfold readStep at hstep
  split_ifs at hstep with hp
  · obtain ⟨hpp, hpc, hpt, hpf, _⟩ := applyPoll_spec pe s
    obtain ⟨hbuf, hfin, hclsd, htid, hinv, hnc, hnu, hnf, hok, hio⟩ :=
      readExit_inl_spec hstep hret
    refine ⟨?_, by rw [hclsd, hpc], by rw [htid, hpt], hnc, hnu, hnf, hok, ?_⟩
    · intro h
      rw [hp.2] at h
      exact Bool.noConfusion h
    · intro h hf
      rw [hio h hf, hpp]
  · obtain ⟨hbuf, hfin, hclsd, htid, hinv, hnc, hnu, hnf, hok, hio⟩ :=
      readExit_inl_spec hstep hret
    exact ⟨fun h => by rw [hfin]; exact h, hclsd, htid, hnc, hnu, hnf, hok, hio⟩

/-- Lifting of `readExit_inr_spec` through the optional poll of `readStep`. -/
theorem readStep_inr_spec {n : Nat} {et : Option ℤ} {pe : PollEffect} {now : ℤ}
    {s : Session} {ret : List Nat} {polls : Nat} {s1 : Session} {ret1 : List Nat} {p1 : Nat}
    (hstep : readStep n et pe now s ret polls = Sum.inr (s1, ret1, p1))
    (hret : ret.length ≤ n) :
    s1.finished = false ∧ (s.finished = true → False) ∧
    s1.closed = s.closed ∧ s1.task_id = s.task_id ∧
    ret1.length ≤ n ∧ s1.readpos + ret.length = s.readpos + ret1.length := by
  unfold readStep at hstep
  split_ifs at hstep with hp
  · obtain ⟨hpp, hpc, hpt, hpf, _⟩ := applyPoll_spec pe s
    obtain ⟨hf0, hspf, hbuf, hclsd, htid, hinv, hlen, hdelta⟩ :=
      readExit_inr_spec hstep hret
    refine ⟨hf0, ?_, hclsd.trans hpc, htid.trans hpt, hlen, ?_⟩
    · intro h
      rw [hp.2] at h
      exact Bool.noConfusion h
    · rw [hdelta, hpp]
  · obtain ⟨hf0, hspf, hbuf, hclsd, htid, hinv, hlen, hdelta⟩ :=
      readExit_inr_spec hstep hret
    refine ⟨hf0, fun h => ?_, hclsd, htid, hlen, hdelta⟩
    rw [hspf] at h
    exact Bool.noConfusion h

/-- The master description of a full run of the polling loop of
`read_transport`: the finished latch is monotone, `closed` and `task_id`
are never touched, the loop raises neither precondition error, a returned
byte string is at most `n` long (exactly `n` unless finished, nonempty when
`n ≥ 1`), and an `IoTimeoutError` raised with the finished flag set has
consumed nothing beyond the bytes already in the in-progress result. -/
theorem readLoop_spec (n : Nat) (et : Option ℤ) :
    ∀ (env : List (PollEffect × ℤ)) (s : Session) (ret : List Nat) (polls : Nat)
      (o : ReadOutcome) (s1 : Session) (c : Nat),
      readLoop n et env s ret polls = (o, s1, c) → ret.length ≤ n →
      ((s.finished = true → s1.finished = true) ∧
       s1.closed = s.closed ∧ s1.task_id = s.task_id ∧
       o ≠ ReadOutcome.transportClosed ∧ o ≠ ReadOutcome.usageError ∧
       (∀ bs, o = ReadOutcome.ok bs →
         bs.length ≤ n ∧ (s1.finished = false → bs.length = n) ∧ (1 ≤ n → bs ≠ [])) ∧
       (o = ReadOutcome.ioTimeout → s1.finished = true →
         s1.readpos + ret.length = s.readpos)) := by
  intro env
  induction env with
  | nil =>
    intro s ret polls o s1 c hrun hret
    simp only [readLoop, Prod.mk.injEq] at hrun
    obtain ⟨ho, hs1, hc⟩ := hrun
    subst ho hs1 hc
    exact ⟨fun h => h, rfl, rfl, by simp, by simp,
      fun bs habs => by simp at habs, fun habs => by simp at habs⟩
  | cons head tail ih =>
    obtain ⟨pe, now⟩ := head
    intro s ret polls o s1 c hrun hret
    rcases hstep : readStep n et pe now s ret polls with r | ⟨s2, ret2, polls2⟩
    · simp only [readLoop, hstep] at hrun
      subst hrun
      obtain ⟨hfin, hclsd, htid, hnc, hnu, _, hok, hio⟩ := readStep_inl_spec hstep hret
      exact ⟨hfin, hclsd, htid, hnc, hnu, hok, hio⟩
    · simp only [readLoop, hstep] at hrun
      obtain ⟨hf0, hsf, hclsd, htid, hlen2, hdelta⟩ := readStep_inr_spec hstep hret
      obtain ⟨ihfin, ihclsd, ihtid, ihnc, ihnu, ihok, ihio⟩ :=
        ih s2 ret2 polls2 o s1 c hrun hlen2
      refine ⟨fun h => absurd h hsf, ihclsd.trans hclsd, ihtid.trans htid,
        ihnc, ihnu, ihok, ?_⟩
      intro h hf
      have h1 := ihio h hf
      omega

/-- Non-shrinking environments stay non-shrinking when the baseline buffer
length decreases. -/
theorem envNonShrinkingB_mono :
    ∀ (env : List (PollEffect × ℤ)) (a b : Nat), a ≤ b →
      envNonShrinkingB b env = true → envNonShrinkingB a env = true := by
  intro env
  induction env with
  | nil =>
    intro a b _ _
    rfl
  | cons head tail ih =>
    obtain ⟨pe, now⟩ := head
    intro a b hab h
    cases hb : pe.newBuf with
    | none =>
      simp only [envNonShrinkingB, hb] at h ⊢
      exact ih a b hab h
    | some cbuf =>
      simp only [envNonShrinkingB, hb, Bool.and_eq_true, decide_eq_true_eq] at h ⊢
      exact ⟨le_trans hab h.1, h.2⟩

/-- One `readStep` preserves the cursor bound when the poll response's
snapshot (if any) is at least as long as the current buffer, and the buffer
it leaves behind is either the old one or that snapshot. -/
theorem readStep_inv {n : Nat} {et : Option ℤ} {pe : PollEffect} {now : ℤ}
    {s : Session} {ret : List Nat} {polls : Nat}
    (hret : ret.length ≤ n)
    (hinv : s.readpos ≤ s.readbuf.length)
    (hpe : ∀ b, pe.newBuf = some b → s.readbuf.length ≤ b.length) :
    (∀ o s1 c, readStep n et pe now s ret polls = Sum.inl (o, s1, c) →
       s1.readpos ≤ s1.readbuf.length) ∧
    (∀ s1 ret1 p1, readStep n et pe now s ret polls = Sum.inr (s1, ret1, p1) →
       s1.readpos ≤ s1.readbuf.length ∧
       (s1.readbuf = s.readbuf ∨ ∃ b, pe.newBuf = some b ∧ s1.readbuf = b)) := by
  have hsp : ∀ sp : Session, sp = applyPoll pe s ∨ sp = s →
      sp.readpos ≤ sp.readbuf.length ∧
      (sp.readbuf = s.readbuf ∨ ∃ b, pe.newBuf = some b ∧ sp.readbuf = b) := by
    intro sp h
    obtain ⟨hpp, _, _, _, hpb⟩ := applyPoll_spec pe s
    cases h with
    | inl h =>
      subst h
      rcases hpb with hsame | ⟨b, hb, hbe⟩
      · exact ⟨by rw [hpp, hsame]; exact hinv, Or.inl hsame⟩
      · refine ⟨?_, Or.inr ⟨b, hb, hbe⟩⟩
        rw [hpp, hbe]
        exact le_trans hinv (hpe b hb)
    | inr h =>
      subst h
      exact ⟨hinv, Or.inl rfl⟩
  constructor
  · intro o s1 c hstep
    unfold readStep at hstep
    split_ifs at hstep with hp
    · obtain ⟨hspinv, hspbuf⟩ := hsp (applyPoll pe s) (Or.inl rfl)
      obtain ⟨hbuf, _, _, _, hinv1, _⟩ := readExit_inl_spec hstep hret
      exact hinv1 hspinv
    · obtain ⟨hbuf, _, _, _, hinv1, _⟩ := readExit_inl_spec hstep hret
      exact hinv1 hinv
  · intro s1 ret1 p1 hstep
    unfold readStep at hstep
    split_ifs at hstep with hp
    · obtain ⟨hspinv, hspbuf⟩ := hsp (applyPoll pe s) (Or.inl rfl)
      obtain ⟨_, _, hbuf, _, _, hinv1, _, _⟩ := readExit_inr_spec hstep hret
      refine ⟨hinv1 hspinv, ?_⟩
      rw [hbuf]
      exact hspbuf
    · obtain ⟨_, _, hbuf, _, _, hinv1, _, _⟩ := readExit_inr_spec hstep hret
      refine ⟨hinv1 hinv, Or.inl hbuf⟩

/-- The polling loop preserves the cursor bound whenever the environment's
output snapshots are non-shrinking with respect to the entry buffer. -/
theorem readLoop_inv (n : Nat) (et : Option ℤ) :
    ∀ (env : List (PollEffect × ℤ)) (s : Session) (ret : List Nat) (polls : Nat),
      ret.length ≤ n →
      s.readpos ≤ s.readbuf.length →
      envNonShrinkingB s.readbuf.length env = true →
      ((readLoop n et env s ret polls).2.1).readpos ≤
        ((readLoop n et env s ret polls).2.1).readbuf.length := by
  intro env
  induction env with
  | nil =>
    intro s ret polls _ hinv _
    simpa only [readLoop] using hinv
  | cons head tail ih =>
    obtain ⟨pe, now⟩ := head
    intro s ret polls hret hinv henv
    have hpe : ∀ b, pe.newBuf = some b → s.readbuf.length ≤ b.length := by
      intro b hb
      simp only [envNonShrinkingB, hb, Bool.and_eq_true, decide_eq_true_eq] at henv
      exact henv.1
    obtain ⟨hinl, hinr⟩ := readStep_inv hret hinv hpe
    rcases hstep : readStep n et pe now s ret polls with r | ⟨s2, ret2, polls2⟩
    · obtain ⟨o, s1, c⟩ := r
      simp only [readLoop, hstep]
      exact hinl o s1 c hstep
    · obtain ⟨hinv2, hbuf2⟩ := hinr s2 ret2 polls2 hstep
      obtain ⟨_, _, _, _, hlen2, _⟩ := readStep_inr_spec hstep hret
      simp only [readLoop, hstep]
      apply ih s2 ret2 polls2 hlen2 hinv2
      rcases hbuf2 with hsame | ⟨b, hb, hbe⟩
      · rw [hsame]
        cases hb : pe.newBuf with
        | none =>
          simp only [envNonShrinkingB, hb] at henv
          exact henv
        | some b =>
          simp only [envNonShrinkingB, hb, Bool.and_eq_true, decide_eq_true_eq] at henv
          exact envNonShrinkingB_mono tail s.readbuf.length b.length henv.1 henv.2
      · rw [hbe]
        simp only [envNonShrinkingB, hb, Bool.and_eq_true, decide_eq_true_eq] at henv
        exact henv.2

/-- The submission loop never changes any session field other than
`task_id`. -/
theorem writeLoop_fields (et : Option ℤ) :
    ∀ (env : List (Option String × ℤ)) (s : Session),
      ((writeLoop et env s).2).readpos = s.readpos ∧
      ((writeLoop et env s).2).readbuf = s.readbuf ∧
      ((writeLoop et env s).2).closed = s.closed ∧
      ((writeLoop et env s).2).finished = s.finished ∧
      ((writeLoop et env s).2).firmware = s.firmware := by
  intro env
  induction env with
  | nil =>
    intro s
    exact ⟨rfl, rfl, rfl, rfl, rfl⟩
  | cons head tail ih =>
    obtain ⟨resp, now⟩ := head
    intro s
    cases resp with
    | some tid => exact ⟨rfl, rfl, rfl, rfl, rfl⟩
    | none =>
      by_cases hd : pastDeadline et now = true
      · simp only [writeLoop]
        rw [if_pos hd]
        exact ⟨rfl, rfl, rfl, rfl, rfl⟩
      · simp only [writeLoop]
        rw [if_neg hd]
        exact ih s

/-- Any run of the submission loop that does not record a task id (deadline
raise or exhausted environment) leaves the session untouched. -/
theorem writeLoop_not_ok_state (et : Option ℤ) :
    ∀ (env : List (Option String × ℤ)) (s : Session),
      (writeLoop et env s).1 ≠ WriteOutcome.ok → (writeLoop et env s).2 = s := by
  intro env
  induction env with
  | nil =>
    intro s _
    rfl
  | cons head tail ih =>
    obtain ⟨resp, now⟩ := head
    intro s h
    cases resp with
    | some tid =>
      exact absurd rfl h
    | none =>
      by_cases hd : pastDeadline et now = true
      · simp only [writeLoop]
        rw [if_pos hd]
      · simp only [writeLoop] at h ⊢
        rw [if_neg hd] at h ⊢
        exact ih s h

/-- A submission loop that raises `IoTimeoutError` does so because a deadline
exists, some attempt found it already passed, and that attempt and every
earlier one failed. -/
theorem writeLoop_ioTimeout (et : Option ℤ) :
    ∀ (env : List (Option String × ℤ)) (s s1 : Session),
      writeLoop et env s = (WriteOutcome.ioTimeout, s1) →
      ∃ E, et = some E ∧ ∃ env1 t env2,
        env = env1 ++ (none, t) :: env2 ∧
        (∀ e ∈ env1, e.1 = none ∧ ¬ (E < e.2)) ∧ E < t := by
  intro env
  induction env with
  | nil =>
    intro s s1 h
    simp only [writeLoop, Prod.mk.injEq] at h
    exact absurd h.1 (by simp)
  | cons head tail ih =>
    obtain ⟨resp, now⟩ := head
    intro s s1 h
    cases resp with
    | some tid =>
      simp only [writeLoop, Prod.mk.injEq] at h
      exact absurd h.1 (by simp)
    | none =>
      by_cases hd : pastDeadline et now = true
      · obtain ⟨E, hE, hEt⟩ := (pastDeadline_true_iff et now).mp hd
        refine ⟨E, hE, [], now, tail, rfl, by simp, hEt⟩
      · simp only [writeLoop] at h
        rw [if_neg hd] at h
        obtain ⟨E, hE, env1, t, env2, henv, hall, hEt⟩ := ih s s1 h
        refine ⟨E, hE, (none, now) :: env1, t, env2, by rw [henv]; rfl, ?_, hEt⟩
        intro e he
        rcases List.mem_cons.mp he with hhd | htl
        · subst hhd
          refine ⟨rfl, ?_⟩
          intro hlt
          apply hd
          rw [pastDeadline_true_iff]
          exact ⟨E, hE, hlt⟩
        · exact hall e htl
      
/-- A successful submission records exactly the identifier returned by the
first successful attempt, every earlier attempt having failed; nothing else
in the session changes. -/
theorem writeLoop_ok (et : Option ℤ) :
    ∀ (env : List (Option String × ℤ)) (s s1 : Session),
      writeLoop et env s = (WriteOutcome.ok, s1) →
      ∃ env1 id t env2,
        env = env1 ++ (some id, t) :: env2 ∧
        (∀ e ∈ env1, e.1 = none) ∧
        s1 = { s with task_id := some id } := by
  intro env
  induction env with
  | nil =>
    intro s s1 h
    simp only [writeLoop, Prod.mk.injEq] at h
    exact absurd h.1 (by simp)
  | cons head tail ih =>
    obtain ⟨resp, now⟩ := head
    intro s s1 h
    cases resp with
    | some tid =>
      simp only [writeLoop, Prod.mk.injEq] at h
      exact ⟨[], tid, now, tail, rfl, by simp, h.2.symm⟩
    | none =>
      by_cases hd : pastDeadline et now = true
      · simp only [writeLoop] at h
        rw [if_pos hd] at h
        simp only [Prod.mk.injEq] at h
        exact absurd h.1 (by simp)
      · simp only [writeLoop] at h
        rw [if_neg hd] at h
        obtain ⟨env1, id, t, env2, henv, hall, hs1⟩ := ih s s1 h
        refine ⟨(none, now) :: env1, id, t, env2, by rw [henv]; rfl, ?_, hs1⟩
        intro e he
        rcases List.mem_cons.mp he with hhd | htl
        · subst hhd
          rfl
        · exact hall e htl

/-- What the implicit close+reopen of `write_transport` produces: a fresh
open session with no task id, cursor at zero, empty buffer, cleared finished
flag, and the firmware reference untouched. -/
theorem reopen_spec (s : Session) :
    (reopen s).task_id = none ∧ (reopen s).readpos = 0 ∧
    (reopen s).readbuf = [] ∧ (reopen s).finished = false ∧
    (reopen s).closed = false ∧ (reopen s).firmware = s.firmware := by
  unfold reopen open_transport close_transport
  cases h : s.options with
  | none => simp [set_options, h]
  | some o => simp [set_options, h]

/-- Every operation preserves the cursor bound on open states, provided a
read operation's environment delivers non-shrinking snapshots relative to
the buffer at call time. -/
theorem runOp_preserves (s : Session) (op : Op)
    (hP : s.closed = false → s.readpos ≤ s.readbuf.length)
    (hop : (match op with
      | Op.readOp _ _ _ env => envNonShrinkingB s.readbuf.length env
      | _ => true) = true) :
    (runOp s op).closed = false → (runOp s op).readpos ≤ (runOp s op).readbuf.length := by
  cases op with
  | flashOp cwd opts =>
    by_cases hc : s.closed = false
    · simp only [runOp, flash, if_pos hc]
      exact hP
    · simp only [runOp, flash, if_neg hc]
      intro hcl
      simp at hcl
  | openOp opts =>
    by_cases hc : s.closed = false
    · simp only [runOp, open_transport, if_pos hc]
      exact hP
    · simp only [runOp, open_transport, if_neg hc]
      intro _
      simp
  | closeOp =>
    simp only [runOp, close_transport]
    intro hcl
    simp at hcl
  | writeOp data tmo t0 env =>
    simp only [runOp, write_transport]
    by_cases hc : s.closed = true ∨ s.firmware = none
    · rw [if_pos hc]
      exact hP
    · rw [if_neg hc]
      cases ht : s.task_id with
      | some tid =>
        simp only [ht]
        obtain ⟨hrp, hrb, _, _, _⟩ :=
          writeLoop_fields (Option.map (fun T => t0 + T) tmo) env (reopen s)
        intro _
        rw [hrp, hrb, (reopen_spec s).2.1, (reopen_spec s).2.2.1]
        simp
      | none =>
        simp only [ht]
        obtain ⟨hrp, hrb, _, _, _⟩ :=
          writeLoop_fields (Option.map (fun T => t0 + T) tmo) env s
        intro _
        rw [hrp, hrb]
        apply hP
        have h1 : ¬ s.closed = true := fun h => hc (Or.inl h)
        simpa using h1
  | readOp n tmo t0 env =>
    simp only [runOp, read_transport]
    by_cases hc : s.closed = true
    · rw [if_pos hc]
      exact hP
    · rw [if_neg hc]
      cases ht : s.task_id with
      | none =>
        simp only [ht]
        exact hP
      | some tid =>
        simp only [ht]
        intro _
        have hcf : s.closed = false := by simpa using hc
        exact readLoop_inv n (Option.map (fun T => t0 + T) tmo) env s [] 0
          (by simp) (hP hcf) hop

/-- The cursor bound on open states is an invariant of every valid trace. -/
theorem validTrace_preserves :
    ∀ (ops : List Op) (s : Session),
      (s.closed = false → s.readpos ≤ s.readbuf.length) →
      validTraceB s ops = true →
      ((runOps s ops).closed = false →
        (runOps s ops).readpos ≤ (runOps s ops).readbuf.length) := by
  intro ops
  induction ops with
  | nil =>
    intro s hP _
    exact hP
  | cons op rest ih =>
    intro s hP hv
    simp only [validTraceB, Bool.and_eq_true] at hv
    exact ih (runOp s op) (runOp_preserves s op hP hv.1) hv.2

-- Claim theorems.

/-- C1, amended: in every session state reachable by public operations, the
read cursor is at most the length of the read buffer whenever the transport
is OPEN, provided every poll snapshot delivered to a read is at least as long
as the buffer it replaces (the remote accumulated-output semantics).  As
stated the claim is false: `close_transport` (and `flash`) clears the buffer
without resetting the cursor, so the bound can fail while the transport is
closed — see the counterexample. -/
theorem c1_cursor_bound (o0 : Option Options) (ops : List Op)
    (hv : validTraceB (initSession o0) ops = true) :
    (runOps (initSession o0) ops).closed = false →
    (runOps (initSession o0) ops).readpos ≤ (runOps (initSession o0) ops).readbuf.length :=
  validTrace_preserves ops (initSession o0) (fun _ => Nat.le.refl) hv

/-- C1 counterexample: after flash, open, a successful write, a read that
delivers three bytes (advancing the cursor to 3) and a `close_transport`,
the reachable state has `readpos = 3 > 0 = length readbuf`: the claimed
invariant `readpos ≤ length readbuf` does not hold after every operation
sequence. -/
theorem c1_cursor_bound_cex :
    ¬ ((runOps (initSession none)
        [Op.flashOp "/p" none, Op.openOp none,
         Op.writeOp [] none 0 [(some "t1", 0)],
         Op.readOp 3 none 0 [(⟨false, some [1, 2, 3]⟩, 0)],
         Op.closeOp]).readpos ≤
       (runOps (initSession none)
        [Op.flashOp "/p" none, Op.openOp none,
         Op.writeOp [] none 0 [(some "t1", 0)],
         Op.readOp 3 none 0 [(⟨false, some [1, 2, 3]⟩, 0)],
         Op.closeOp]).readbuf.length) := by
  decide

/-- C1 witness: the amended theorem applied to the concrete trace
flash-then-open. -/
theorem c1_cursor_bound_witness :
    (runOps (initSession none) [Op.flashOp "/p" none, Op.openOp none]).readpos ≤
      (runOps (initSession none) [Op.flashOp "/p" none, Op.openOp none]).readbuf.length :=
  c1_cursor_bound none [Op.flashOp "/p" none, Op.openOp none] (by decide) (by decide)

/-- C2, amended: a `write_transport` that raises `IoTimeoutError` leaves no
task id recorded; a `read_transport` that raises `TransportClosedError` or
`CITransportUsageError` leaves the session unchanged; and a `read_transport`
that raises `IoTimeoutError` at end-of-stream (finished flag set, nothing
accumulated) leaves the read cursor unchanged, so a retry can still deliver
every unread byte.  The original claim is false for the deadline-expiry
`IoTimeoutError`: it can advance the cursor past bytes that were consumed
into the in-progress result and then discarded — see the counterexample. -/
theorem c2_error_state (data : List Nat) (wto : Option ℤ) (wt0 : ℤ)
    (envW : List (Option String × ℤ)) (n : Nat) (rto : Option ℤ) (rt0 : ℤ)
    (envR : List (PollEffect × ℤ)) (s : Session) :
    ((write_transport data wto wt0 envW s).1 = WriteOutcome.ioTimeout →
      ((write_transport data wto wt0 envW s).2).task_id = none) ∧
    ((read_transport n rto rt0 envR s).1 = ReadOutcome.transportClosed ∨
      (read_transport n rto rt0 envR s).1 = ReadOutcome.usageError →
      (read_transport n rto rt0 envR s).2.1 = s) ∧
    ((read_transport n rto rt0 envR s).1 = ReadOutcome.ioTimeout →
      ((read_transport n rto rt0 envR s).2.1).finished = true →
      ((read_transport n rto rt0 envR s).2.1).readpos = s.readpos) := by
  refine ⟨?_, ?_, ?_⟩
  · unfold write_transport
    by_cases hc : s.closed = true ∨ s.firmware = none
    · rw [if_pos hc]
      intro h
      simp at h
    · rw [if_neg hc]
      cases ht : s.task_id with
      | some tid =>
        simp only [ht]
        intro h
        have h2 := writeLoop_not_ok_state (Option.map (fun T => wt0 + T) wto) envW
          (reopen s) (by rw [h]; simp)
        rw [h2]
        exact (reopen_spec s).1
      | none =>
        simp only [ht]
        intro h
        have h2 := writeLoop_not_ok_state (Option.map (fun T => wt0 + T) wto) envW
          s (by rw [h]; simp)
        rw [h2]
        exact ht
  · unfold read_transport
    by_cases hc : s.closed = true
    · rw [if_pos hc]
      intro _
      rfl
    · rw [if_neg hc]
      cases ht : s.task_id with
      | none =>
        simp only [ht]
        intro _
        trivial
      | some tid =>
        simp only [ht]
        intro h
        obtain ⟨_, _, _, hnc, hnu, _, _⟩ :=
          readLoop_spec n (Option.map (fun T => rt0 + T) rto) envR s [] 0 _ _ _ rfl
            (by simp)
        cases h with
        | inl h => exact absurd h hnc
        | inr h => exact absurd h hnu
  · unfold read_transport
    by_cases hc : s.closed = true
    · rw [if_pos hc]
      intro h
      simp at h
    · rw [if_neg hc]
      cases ht : s.task_id with
      | none =>
        simp only [ht]
        intro h
        simp at h
      | some tid =>
        simp only [ht]
        intro h hf
        obtain ⟨_, _, _, _, _, _, hio⟩ :=
          readLoop_spec n (Option.map (fun T => rt0 + T) rto) envR s [] 0 _ _ _ rfl
            (by simp)
        have h1 := hio h hf
        simpa using h1

/-- C2 counterexample: on an open session with a fresh task, a
`read_transport 10` with timeout 0 polls, receives the snapshot `[1, 2, 3]`,
consumes it (cursor 0 → 3), then raises the deadline `IoTimeoutError`,
discarding the three consumed-but-undelivered bytes; the natural retry (the
remote again reports the full snapshot `[1, 2, 3]`, now finished) raises
`IoTimeoutError` instead of delivering them — the failed read did NOT leave
buffer/cursor in a state from which a retry can return every undelivered
byte. -/
theorem c2_error_state_cex :
    sOpenTask.readpos = 0 ∧
    (read_transport 10 (some 0) 0 [(⟨false, some [1, 2, 3]⟩, 1)] sOpenTask).1 =
      ReadOutcome.ioTimeout ∧
    ((read_transport 10 (some 0) 0 [(⟨false, some [1, 2, 3]⟩, 1)] sOpenTask).2.1).readpos = 3 ∧
    (read_transport 10 none 0 [(⟨true, some [1, 2, 3]⟩, 0)]
      ((read_transport 10 (some 0) 0 [(⟨false, some [1, 2, 3]⟩, 1)] sOpenTask).2.1)).1 =
      ReadOutcome.ioTimeout := by
  decide

/-- C2 witness: the amended theorem's write part applied to a concrete
submission that times out: no task id is recorded. -/
theorem c2_error_state_witness :
    ((write_transport [] (some 0) 0 [(none, 1)] sOpenTask).2).task_id = none :=
  (c2_error_state [] (some 0) 0 [(none, 1)] 1 none 0 [] sOpenTask).1 (by decide)

/-- C3, amended: for a `read_transport` call with `n ≥ 1` on an open
transport with a task id, if the finished flag is set when the call ends
(and the environment sufficed to finish the loop), then either the call
raised `IoTimeoutError` having accumulated nothing (cursor unchanged), or it
returned a nonempty byte string of at most `n` bytes.  The original claim is
false at `n = 0`: with the finished flag set and nothing accumulated the call
returns the empty string instead of raising `IoTimeoutError` — see the
counterexample; and a finished task with `n` bytes available yields a full
(not short) result. -/
theorem c3_finished_read (n : Nat) (rto : Option ℤ) (rt0 : ℤ)
    (env : List (PollEffect × ℤ)) (s : Session) (tid : String)
    (hn : 1 ≤ n) (hc : s.closed = false) (ht : s.task_id = some tid) :
    ((read_transport n rto rt0 env s).2.1).finished = true →
    (read_transport n rto rt0 env s).1 ≠ ReadOutcome.fuelOut →
    ((read_transport n rto rt0 env s).1 = ReadOutcome.ioTimeout ∧
      ((read_transport n rto rt0 env s).2.1).readpos = s.readpos) ∨
    (∃ bs, (read_transport n rto rt0 env s).1 = ReadOutcome.ok bs ∧
      bs ≠ [] ∧ bs.length ≤ n) := by
  unfold read_transport
  rw [if_neg (by simp [hc])]
  simp only [ht]
  intro hf hnf
  obtain ⟨_, _, _, hnc, hnu, hok, hio⟩ :=
    readLoop_spec n (Option.map (fun T => rt0 + T) rto) env s [] 0 _ _ _ rfl (by simp)
  cases ho : (readLoop n (Option.map (fun T => rt0 + T) rto) env s [] 0).1 with
  | ok bs =>
    obtain ⟨h1, _, h3⟩ := hok bs ho
    exact Or.inr ⟨bs, rfl, h3 hn, h1⟩
  | ioTimeout =>
    refine Or.inl ⟨rfl, ?_⟩
    have h1 := hio ho hf
    simpa using h1
  | transportClosed => exact absurd ho hnc
  | usageError => exact absurd ho hnu
  | fuelOut => exact absurd ho hnf

/-- C3 counterexample: on an open session whose task has finished with no
output (`sFinishedTask`), a `read_transport 0` accumulates nothing yet
returns the empty string — it does not raise `IoTimeoutError` as the claim
requires for a finished task with no accumulated bytes. -/
theorem c3_finished_read_cex :
    sFinishedTask.closed = false ∧ sFinishedTask.task_id = some "t1" ∧
    sFinishedTask.finished = true ∧
    (read_transport 0 none 0 [(⟨false, none⟩, 0)] sFinishedTask).1 =
      ReadOutcome.ok [] := by
  decide

/-- C3 witness: the amended theorem applied to a concrete read of 2 bytes
whose single poll reports finished with a one-byte output. -/
theorem c3_finished_read_witness :
    ((read_transport 2 none 0 [(⟨true, some [7]⟩, 0)] sOpenTask).1 =
        ReadOutcome.ioTimeout ∧
      ((read_transport 2 none 0 [(⟨true, some [7]⟩, 0)] sOpenTask).2.1).readpos =
        sOpenTask.readpos) ∨
    (∃ bs, (read_transport 2 none 0 [(⟨true, some [7]⟩, 0)] sOpenTask).1 =
        ReadOutcome.ok bs ∧ bs ≠ [] ∧ bs.length ≤ 2) :=
  c3_finished_read 2 none 0 [(⟨true, some [7]⟩, 0)] sOpenTask "t1"
    (by decide) (by decide) (by decide) (by decide) (by decide)

/-- C4 (confirmed): every byte string returned by `read_transport` has length
at most `n`, and exactly `n` unless the finished flag is set at the time of
return. -/
theorem c4_read_length (n : Nat) (rto : Option ℤ) (rt0 : ℤ)
    (env : List (PollEffect × ℤ)) (s : Session) (bs : List Nat)
    (h : (read_transport n rto rt0 env s).1 = ReadOutcome.ok bs) :
    bs.length ≤ n ∧
    (((read_transport n rto rt0 env s).2.1).finished = false → bs.length = n) := by
  unfold read_transport at h ⊢
  by_cases hc : s.closed = true
  · rw [if_pos hc] at h
    simp at h
  · rw [if_neg hc] at h ⊢
    cases ht : s.task_id with
    | none =>
      simp only [ht] at h
      simp at h
    | some tid =>
      simp only [ht] at h ⊢
      obtain ⟨_, _, _, _, _, hok, _⟩ :=
        readLoop_spec n (Option.map (fun T => rt0 + T) rto) env s [] 0 _ _ _ rfl
          (by simp)
      obtain ⟨h1, h2, _⟩ := hok bs h
      exact ⟨h1, h2⟩

/-- C4 witness: the theorem applied to a concrete read of 2 bytes from a
3-byte snapshot, which returns exactly the first 2 bytes. -/
theorem c4_read_length_witness :
    (([9, 8] : List Nat).length ≤ 2) ∧
    (((read_transport 2 none 0 [(⟨false, some [9, 8, 7]⟩, 0)] sOpenTask).2.1).finished =
        false → ([9, 8] : List Nat).length = 2) :=
  c4_read_length 2 none 0 [(⟨false, some [9, 8, 7]⟩, 0)] sOpenTask [9, 8] (by decide)

/-- C5 (confirmed): a `write_transport` on an open transport that already
holds a task id first closes and reopens the session — the submission loop
starts from a state with cursor 0, empty buffer, cleared finished flag and no
task id — and a successful submission records exactly the task id returned by
the remote service, with no other trace of the first task. -/
theorem c5_write_reopen (data : List Nat) (wto : Option ℤ) (wt0 : ℤ)
    (env : List (Option String × ℤ)) (s : Session) (tid0 : String)
    (hc : s.closed = false) (hf : s.firmware ≠ none) (ht : s.task_id = some tid0) :
    write_transport data wto wt0 env s =
      writeLoop (Option.map (fun T => wt0 + T) wto) env (reopen s) ∧
    (reopen s).task_id = none ∧ (reopen s).readpos = 0 ∧ (reopen s).readbuf = [] ∧
    (reopen s).finished = false ∧ (reopen s).closed = false ∧
    (reopen s).firmware = s.firmware ∧
    ((write_transport data wto wt0 env s).1 = WriteOutcome.ok →
      ∃ env1 id t env2, env = env1 ++ (some id, t) :: env2 ∧
        (∀ e ∈ env1, e.1 = none) ∧
        (write_transport data wto wt0 env s).2 = { reopen s with task_id := some id }) := by
  have hcond : ¬ (s.closed = true ∨ s.firmware = none) := by
    rintro (h | h)
    · rw [hc] at h
      exact Bool.noConfusion h
    · exact hf h
  have heq : write_transport data wto wt0 env s =
      writeLoop (Option.map (fun T => wt0 + T) wto) env (reopen s) := by
    unfold write_transport
    rw [if_neg hcond]
    simp only [ht]
  obtain ⟨h1, h2, h3, h4, h5, h6⟩ := reopen_spec s
  refine ⟨heq, h1, h2, h3, h4, h5, h6, ?_⟩
  intro hok
  rw [heq] at hok
  have hfull : writeLoop (Option.map (fun T => wt0 + T) wto) env (reopen s) =
      (WriteOutcome.ok, (writeLoop (Option.map (fun T => wt0 + T) wto) env (reopen s)).2) :=
    Prod.ext_iff.mpr ⟨hok, rfl⟩
  obtain ⟨env1, id, t, env2, henv, hall, hs1⟩ :=
    writeLoop_ok (Option.map (fun T => wt0 + T) wto) env (reopen s) _ hfull
  refine ⟨env1, id, t, env2, henv, hall, ?_⟩
  rw [heq, hs1]

/-- C5 witness: the theorem applied to a concrete open session holding task
id `t1`, with a second submission succeeding immediately. -/
theorem c5_write_reopen_witness :
    write_transport [] none 0 [(some "t2", 0)] sOpenTask =
      writeLoop (Option.map (fun T => (0 : ℤ) + T) none) [(some "t2", 0)]
        (reopen sOpenTask) ∧
    (reopen sOpenTask).task_id = none :=
  ⟨(c5_write_reopen [] none 0 [(some "t2", 0)] sOpenTask "t1"
      (by decide) (by decide) (by decide)).1,
   (c5_write_reopen [] none 0 [(some "t2", 0)] sOpenTask "t1"
      (by decide) (by decide) (by decide)).2.1⟩

/-- C6, amended: the finished latch is cleared only by a close+reopen of the
session: `close_transport` leaves it exactly as it was, `read_transport`
never clears it once set, and `write_transport` preserves it when no task id
exists.  The original claim ("no operation other than open_transport or
flash ever clears it") is false: `write_transport` with an existing task id
clears the flag through its implicit close+reopen — see the counterexample. -/
theorem c6_finished_latch (s : Session) :
    ((close_transport s).finished = s.finished) ∧
    (∀ (n : Nat) (rto : Option ℤ) (rt0 : ℤ) (env : List (PollEffect × ℤ)),
      s.finished = true → ((read_transport n rto rt0 env s).2.1).finished = true) ∧
    (∀ (data : List Nat) (wto : Option ℤ) (wt0 : ℤ) (env : List (Option String × ℤ)),
      s.task_id = none → ((write_transport data wto wt0 env s).2).finished = s.finished) := by
  refine ⟨rfl, ?_, ?_⟩
  · intro n rto rt0 env hf
    unfold read_transport
    by_cases hc : s.closed = true
    · rw [if_pos hc]
      exact hf
    · rw [if_neg hc]
      cases ht : s.task_id with
      | none =>
        simp only [ht]
        exact hf
      | some tid =>
        simp only [ht]
        obtain ⟨hfin, _⟩ :=
          readLoop_spec n (Option.map (fun T => rt0 + T) rto) env s [] 0 _ _ _ rfl
            (by simp)
        exact hfin hf
  · intro data wto wt0 env ht
    unfold write_transport
    by_cases hc : s.closed = true ∨ s.firmware = none
    · rw [if_pos hc]
    · rw [if_neg hc]
      simp only [ht]
      exact (writeLoop_fields (Option.map (fun T => wt0 + T) wto) env s).2.2.2.1

/-- C6 counterexample: `sFinishedTask` has the finished flag set; a
`write_transport` (an operation that is neither `open_transport` nor `flash`)
with a successful submission clears it. -/
theorem c6_finished_latch_cex :
    sFinishedTask.finished = true ∧
    ((write_transport [] none 0 [(some "t2", 0)] sFinishedTask).2).finished = false := by
  decide

/-- C6 witness: the amended theorem's read part applied to `sFinishedTask`:
a further read leaves the flag set. -/
theorem c6_finished_latch_witness :
    ((read_transport 1 none 0 [] sFinishedTask).2.1).finished = true :=
  (c6_finished_latch sFinishedTask).2.1 1 none 0 [] (by decide)

/-- C7 (confirmed): `close_transport` marks the session closed, empties the
read buffer and clears the task id, and it is idempotent: any number of
additional consecutive calls leaves the entire session state identical to
the state after the first call. -/
theorem c7_close_idempotent (s : Session) (k : Nat) :
    close_transport^[k + 1] s = close_transport s ∧
    (close_transport s).closed = true ∧
    (close_transport s).readbuf = [] ∧
    (close_transport s).task_id = none := by
  refine ⟨?_, rfl, rfl, rfl⟩
  induction k with
  | zero => rfl
  | succ k ih =>
    rw [Function.iterate_succ_apply', ih]
    rfl

/-- Deadline enforcement of the submission loop: with a deadline in force,
once the environment reaches a failing attempt whose clock reading is past
the deadline, preceded only by failing attempts, the loop raises
`IoTimeoutError` (at that attempt or at an earlier failing attempt already
past the deadline), leaving the session untouched. -/
theorem writeLoop_deadline_raises (et : Option ℤ) :
    ∀ (env1 : List (Option String × ℤ)) (t : ℤ) (env2 : List (Option String × ℤ))
      (s : Session) (E : ℤ),
      et = some E → (∀ e ∈ env1, e.1 = none) → E < t →
      writeLoop et (env1 ++ (none, t) :: env2) s = (WriteOutcome.ioTimeout, s) := by
  intro env1
  induction env1 with
  | nil =>
    intro t env2 s E hE _ hlt
    subst hE
    have hd : pastDeadline (some E) t = true := by
      rw [pastDeadline_true_iff]
      exact ⟨E, rfl, hlt⟩
    simp only [List.nil_append, writeLoop]
    rw [if_pos hd]
  | cons head env1 ih =>
    obtain ⟨resp, t0⟩ := head
    intro t env2 s E hE hall hlt
    have hresp : resp = none := hall (resp, t0) (List.mem_cons_self _ _)
    subst hresp
    simp only [List.cons_append, writeLoop]
    by_cases hd : pastDeadline et t0 = true
    · rw [if_pos hd]
    · rw [if_neg hd]
      exact ih t env2 s E hE (fun e he => hall e (List.mem_cons_of_mem _ he)) hlt

/-- C8 (confirmed): the deadline of `write_transport` is computed once at
entry as `t0 + timeout_sec`; with a null timeout the call never raises
`IoTimeoutError`; when it does raise `IoTimeoutError`, a deadline existed,
every attempt up to some failing attempt returned failure without the
deadline having passed, and at that attempt the deadline had elapsed; a
successful call records exactly the task id returned by the first successful
attempt, all earlier attempts having failed; and, conversely, the deadline is
enforced: on an open transport with a firmware reference, once the
environment presents a failing attempt past the deadline preceded only by
failing attempts, the call does raise `IoTimeoutError`. -/
theorem c8_write_deadline (data : List Nat) (wto : Option ℤ) (wt0 : ℤ)
    (env : List (Option String × ℤ)) (s : Session) :
    (wto = none → (write_transport data wto wt0 env s).1 ≠ WriteOutcome.ioTimeout) ∧
    ((write_transport data wto wt0 env s).1 = WriteOutcome.ioTimeout →
      ∃ T, wto = some T ∧ ∃ env1 t env2,
        env = env1 ++ (none, t) :: env2 ∧
        (∀ e ∈ env1, e.1 = none ∧ ¬ (wt0 + T < e.2)) ∧ wt0 + T < t) ∧
    ((write_transport data wto wt0 env s).1 = WriteOutcome.ok →
      ∃ env1 id t env2, env = env1 ++ (some id, t) :: env2 ∧
        (∀ e ∈ env1, e.1 = none) ∧
        ((write_transport data wto wt0 env s).2).task_id = some id) ∧
    (∀ T env1 t env2, wto = some T → env = env1 ++ (none, t) :: env2 →
      (∀ e ∈ env1, e.1 = none) → wt0 + T < t →
      s.closed = false → s.firmware ≠ none →
      (write_transport data wto wt0 env s).1 = WriteOutcome.ioTimeout) := by
  unfold write_transport
  by_cases hc : s.closed = true ∨ s.firmware = none
  · rw [if_pos hc]
    refine ⟨fun _ h => by simp at h, fun h => by simp at h, fun h => by simp at h, ?_⟩
    intro T env1 t env2 _ _ _ _ hclosed hfw
    rcases hc with h | h
    · rw [hclosed] at h
      exact Bool.noConfusion h
    · exact absurd h hfw
  · rw [if_neg hc]
    refine ⟨?_, ?_, ?_, ?_⟩
    · intro hnone h
      subst hnone
      obtain ⟨E, hE, _⟩ :=
        writeLoop_ioTimeout none env _ _ (Prod.ext_iff.mpr ⟨h, rfl⟩)
      exact Option.noConfusion hE
    · intro h
      obtain ⟨E, hE, env1, t, env2, henv, hall, hEt⟩ :=
        writeLoop_ioTimeout (Option.map (fun T => wt0 + T) wto) env _ _
          (Prod.ext_iff.mpr ⟨h, rfl⟩)
      cases wto with
      | none => simp at hE
      | some T =>
        simp only [Option.map] at hE
        have hE2 : wt0 + T = E := Option.some.inj hE
        subst hE2
        exact ⟨T, rfl, env1, t, env2, henv, hall, hEt⟩
    · intro h
      obtain ⟨env1, id, t, env2, henv, hall, hs1⟩ :=
        writeLoop_ok (Option.map (fun T => wt0 + T) wto) env _ _
          (Prod.ext_iff.mpr ⟨h, rfl⟩)
      refine ⟨env1, id, t, env2, henv, hall, ?_⟩
      exact congrArg Session.task_id hs1
    · intro T env1 t env2 hwto henv hall hlt _ _
      subst hwto henv
      exact congrArg Prod.fst
        (writeLoop_deadline_raises (Option.map (fun T => wt0 + T) (some T))
          env1 t env2 _ (wt0 + T) rfl hall hlt)

/-- C8 witness: the theorem applied to concrete inputs: with a null timeout a
failing attempt raises no `IoTimeoutError`, and with timeout 0 (deadline 0) a
failing attempt at clock reading 1 raises `IoTimeoutError`. -/
theorem c8_write_deadline_witness :
    (write_transport [] none 0 [(none, 0)] sOpenTask).1 ≠ WriteOutcome.ioTimeout ∧
    (write_transport [] (some 0) 0 [(none, 1)] sOpenTask).1 = WriteOutcome.ioTimeout :=
  ⟨(c8_write_deadline [] none 0 [(none, 0)] sOpenTask).1 rfl,
   (c8_write_deadline [] (some 0) 0 [(none, 1)] sOpenTask).2.2.2 0 [] 1 []
     rfl rfl (by simp) (by decide) (by decide) (by decide)⟩

/-- C9 (confirmed): a `read_transport` on a closed transport raises
`TransportClosedError`, and on an open transport without a task id raises
`CITransportUsageError`; in both cases the session state is returned
untouched and no status poll is performed. -/
theorem c9_read_preconditions (n : Nat) (rto : Option ℤ) (rt0 : ℤ)
    (env : List (PollEffect × ℤ)) (s : Session) :
    (s.closed = true →
      read_transport n rto rt0 env s = (ReadOutcome.transportClosed, s, 0)) ∧
    (s.closed = false → s.task_id = none →
      read_transport n rto rt0 env s = (ReadOutcome.usageError, s, 0)) := by
  constructor
  · intro hc
    unfold read_transport
    rw [if_pos hc]
  · intro hc ht
    unfold read_transport
    rw [if_neg (by simp [hc])]
    simp only [ht]

/-- C9 witness: the theorem applied to the freshly constructed (closed)
session and to a flashed-and-opened session on which no write has occurred. -/
theorem c9_read_preconditions_witness :
    read_transport 1 none 0 [] (initSession none) =
      (ReadOutcome.transportClosed, initSession none, 0) ∧
    read_transport 1 none 0 []
        (runOps (initSession none) [Op.flashOp "/p" none, Op.openOp none]) =
      (ReadOutcome.usageError,
        runOps (initSession none) [Op.flashOp "/p" none, Op.openOp none], 0) :=
  ⟨(c9_read_preconditions 1 none 0 [] (initSession none)).1 (by decide),
   (c9_read_preconditions 1 none 0 []
      (runOps (initSession none) [Op.flashOp "/p" none, Op.openOp none])).2
     (by decide) (by decide)⟩

/-- C10 (confirmed): a `read_transport` of zero bytes on an open transport
with a task id returns the empty byte string within its first loop iteration
— performing at most one status poll and never raising `IoTimeoutError` —
whatever the timeout (including 0) and whatever the remote replies (including
an already-finished task with no output). -/
theorem c10_read_zero (rto : Option ℤ) (rt0 : ℤ) (env : List (PollEffect × ℤ))
    (s : Session) (tid : String)
    (hc : s.closed = false) (ht : s.task_id = some tid) (henv : env ≠ []) :
    ∃ s1 polls, read_transport 0 rto rt0 env s = (ReadOutcome.ok [], s1, polls) ∧
      polls ≤ 1 := by
  unfold read_transport
  rw [if_neg (by simp [hc])]
  simp only [ht]
  cases env with
  | nil => exact absurd rfl henv
  | cons head tail =>
    obtain ⟨pe, now⟩ := head
    have hstep : ∀ (sp : Session) (polls1 : Nat),
        readExit 0 (Option.map (fun T => rt0 + T) rto) now sp [] polls1 =
          Sum.inl (ReadOutcome.ok [], (consume 0 sp []).1, polls1) := by
      intro sp polls1
      have hr : (consume 0 sp []).2 = [] := by
        unfold consume
        split_ifs with h
        · simp
        · rfl
      simp [readExit, hr]
    simp only [readLoop]
    unfold readStep
    by_cases hp : s.readbuf.length ≤ s.readpos ∧ s.finished = false
    · rw [if_pos hp, hstep (applyPoll pe s) 1]
      exact ⟨(consume 0 (applyPoll pe s) []).1, 1, rfl, le_refl 1⟩
    · rw [if_neg hp, hstep s 0]
      exact ⟨(consume 0 s []).1, 0, rfl, by omega⟩

/-- C10 witness: the theorem applied to an open session whose task has
finished with no output, with timeout 0 and a clock already past the
deadline: the call still returns the empty string with at most one poll. -/
theorem c10_read_zero_witness :
    ∃ s1 polls,
      read_transport 0 (some 0) 0 [(⟨false, none⟩, 5)] sFinishedTask =
        (ReadOutcome.ok [], s1, polls) ∧ polls ≤ 1 :=
  c10_read_zero (some 0) 0 [(⟨false, none⟩, 5)] sFinishedTask "t1"
    (by decide) (by decide) (by simp)
